import Mathlib

/-!
Verification of the recovery pipeline in `src/lib/converter.ts`
(excel-convert).

Strings are modelled as `List Char` (JS strings are sequences of
characters; surrogate-pair subtleties do not arise in any claim).
JS numbers reaching the cell normalizer are decimal literals without
exponent, modelled exactly as rationals.  External collaborator calls
(the SheetJS reader/writer, iconv/jschardet decoding, zlib) are
modelled as explicit outcome parameters; everything else is translated
from the TypeScript source.
-/

namespace ExcelConvert

/-- Whitespace class used by JS `String.prototype.trim` and the regex
class `\s` (the members relevant to this code base). -/
def isJsSpace (c : Char) : Bool :=
  c = ' ' ∨ c = '\t' ∨ c = '\n' ∨ c = '\r' ∨ c = '\x0b' ∨ c = '\x0c' ∨
  c = ' ' ∨ c = '﻿'

/-- JS `String.prototype.trim`: drop whitespace from both ends. -/
def jsTrim (s : List Char) : List Char :=
  ((s.dropWhile isJsSpace).reverse.dropWhile isJsSpace).reverse

/-- ASCII decimal digit (regex `\d`). -/
def isDigit (c : Char) : Bool := '0' ≤ c ∧ c ≤ '9'

/-- Character class `[\d,]` of the number pattern in `normalizeCell`. -/
def isDigitComma (c : Char) : Bool := isDigit c ∨ c = ','

/-- Tail `\.?\d*$` of the number pattern. -/
def numTail (s : List Char) : Bool :=
  match s with
  | [] => true
  | '.' :: ds => ds.all isDigit
  | _ => false

/-- The regex `/^-?[\d,]+\.?\d*$/` from `normalizeCell` (line 238).
The greedy match is deterministic for this pattern. -/
def matchNumber (s : List Char) : Bool :=
  let t := match s with
    | '-' :: r => r
    | r => r
  let core := t.takeWhile isDigitComma
  let rest := t.dropWhile isDigitComma
  core ≠ [] ∧ numTail rest

/-- Digit run to a natural number (most significant first). -/
def digitsToNat (ds : List Char) : ℕ :=
  ds.foldl (fun a c => 10 * a + (c.toNat - '0'.toNat)) 0

/-- JS `parseFloat`, restricted to the shapes `-?\d*\.?\d*` that reach
it in `normalizeCell` (thousands separators already stripped); `none`
models `NaN`.  The value `±ip.fp` is the rational
`±(ip·10^|fp| + fp) / 10^|fp|`, modelled exactly. -/
def parseNumQ (s : List Char) : Option ℚ :=
  let (neg, t) := match s with
    | '-' :: r => (true, r)
    | r => (false, r)
  let ip := t.takeWhile isDigit
  let rest := t.dropWhile isDigit
  let fp := match rest with
    | '.' :: ds => ds.takeWhile isDigit
    | _ => []
  if ip = [] ∧ fp = [] then none
  else
    let n : ℤ := digitsToNat ip * 10 ^ fp.length + digitsToNat fp
    some (mkRat (if neg then -n else n) (10 ^ fp.length))

/-- The regex `/^(-?[\d,]+\.?\d*)\s*%$/` from `normalizeCell`
(line 248); returns the captured number body when it matches. -/
def matchPercent (s : List Char) : Option (List Char) :=
  match s.reverse with
  | '%' :: r =>
    let body := (r.dropWhile isJsSpace).reverse
    if matchNumber body then some body else none
  | _ => none

/-- Cell values of the recovered tables.  `null` models the JS `null`
marker that `sheet_to_json` emits for absent cells (`defval: null`);
dates carry year/month/day. -/
inductive Cell where
  | str (s : List Char)
  | num (q : ℚ)
  | bool (b : Bool)
  | date (y m d : ℕ)
  | null
deriving DecidableEq, Repr

/-- Gregorian leap year, as used by `date-fns` for `YYYY-MM-DD`. -/
def isLeap (y : ℕ) : Bool := y % 4 = 0 ∧ (y % 100 ≠ 0 ∨ y % 400 = 0)

/-- Days in a month (`date-fns` validity of a parsed ISO date). -/
def daysInMonth (y m : ℕ) : ℕ :=
  if m = 2 then (if isLeap y then 29 else 28)
  else if m = 4 ∨ m = 6 ∨ m = 9 ∨ m = 11 then 30
  else 31

/-- The `^\d{4}-\d{2}-\d{2}$` pattern of `normalizeCell` (line 258). -/
def matchDateShape (s : List Char) : Option (ℕ × ℕ × ℕ) :=
  match s with
  | [y1, y2, y3, y4, '-', m1, m2, '-', d1, d2] =>
    if [y1, y2, y3, y4, m1, m2, d1, d2].all isDigit then
      some (digitsToNat [y1, y2, y3, y4], digitsToNat [m1, m2], digitsToNat [d1, d2])
    else none
  | _ => none

/-- `parseISO` + `isValid` from `date-fns` on a `YYYY-MM-DD` string:
month and day must denote a real calendar date. -/
def isValidYmd (y m d : ℕ) : Bool :=
  1 ≤ m ∧ m ≤ 12 ∧ 1 ≤ d ∧ d ≤ daysInMonth y m

/-- ASCII lowering; `String.prototype.toLowerCase` restricted to the
characters that can make the result equal one of the boolean literals
compared against in `normalizeCell` (no non-ASCII character
case-maps onto the letters of `true/yes/false/no`). -/
def asciiLower (c : Char) : Char :=
  if 'A' ≤ c ∧ c ≤ 'Z' then Char.ofNat (c.toNat + 32) else c

/-- Rule (1) of the data normalizer: plain number (line 238-245). -/
def normalizeCellNum (trimmed : List Char) : Option Cell :=
  if matchNumber trimmed ∧ ¬ trimmed.contains '(' then
    (parseNumQ (trimmed.filter (fun c => c ≠ ','))).map Cell.num
  else none

/-- Rule (2): percent (line 248-255). -/
def normalizeCellPct (trimmed : List Char) : Option Cell :=
  match matchPercent trimmed with
  | some body => (parseNumQ (body.filter (fun c => c ≠ ','))).map (fun q => Cell.num (q / 100))
  | none => none

/-- Rule (3): ISO date (line 258-268). -/
def normalizeCellDate (trimmed : List Char) : Option Cell :=
  match matchDateShape trimmed with
  | some (y, m, d) => if isValidYmd y m d then some (Cell.date y m d) else none
  | none => none

/-- Rule (4): boolean literals (line 271-277). -/
def normalizeCellBool (trimmed : List Char) : Option Cell :=
  let lower := trimmed.map asciiLower
  if lower = "true".data ∨ lower = "참".data ∨ lower = "yes".data then some (Cell.bool true)
  else if lower = "false".data ∨ lower = "거짓".data ∨ lower = "no".data then some (Cell.bool false)
  else none

/-- `normalizeCell` (converter.ts line 225-281): empty stays the empty
string, text with both parentheses stays verbatim, then number,
percent, date, boolean, else the trimmed string.  A rule whose
`parseFloat` yields `NaN` falls through to the next rule, exactly as
in the source. -/
def normalizeCell (value : List Char) : Cell :=
  if jsTrim value = [] then .str []
  else
    let trimmed := jsTrim value
    if trimmed.contains '(' ∧ trimmed.contains ')' then .str trimmed
    else
      match normalizeCellNum trimmed with
      | some c => c
      | none =>
        match normalizeCellPct trimmed with
        | some c => c
        | none =>
          match normalizeCellDate trimmed with
          | some c => c
          | none =>
            match normalizeCellBool trimmed with
            | some c => c
            | none => .str trimmed

/-- Decimal representation of a natural number, for the JS template
interpolations such as a template with a number inside. -/
def natRepr (n : ℕ) : List Char := (Nat.repr n).data

/-! ### `normalizeHeaderField` (converter.ts line 198-220) -/

/-- The control range `[\x00-\x1F\x7F-\x9F]` removed from headers. -/
def isCtrlChar (c : Char) : Bool :=
  c.toNat ≤ 0x1F ∨ (0x7F ≤ c.toNat ∧ c.toNat ≤ 0x9F)

/-- Regex `\w`. -/
def isWordChar (c : Char) : Bool :=
  ('a' ≤ c ∧ c ≤ 'z') ∨ ('A' ≤ c ∧ c ≤ 'Z') ∨ isDigit c ∨ c = '_'

/-- The Hangul syllable block `가-힣`. -/
def isKoreanSyllable (c : Char) : Bool := '가' ≤ c ∧ c ≤ '힣'

/-- Characters kept by the header class `[\w\s가-힣()[\]{}.,\-_]`. -/
def isHeaderSafe (c : Char) : Bool :=
  isWordChar c ∨ isJsSpace c ∨ isKoreanSyllable c ∨
  c ∈ ['(', ')', '[', ']', '{', '}', '.', ',', '-', '_']

/-- Collapse every run of characters satisfying `p` to the single
character `out` (models `replace(/X+/g, out)` for a character class
`X`; runs of length 1 are rewritten to `out` as well, which for the
uses here — `\s+ → ' '` and `_{2,} → '_'` — agrees with the source
because a single `'_'` collapses to itself and a single space maps to
a space).  `skip` records being inside a run. -/
def collapseRuns (p : Char → Bool) (out : Char) : Bool → List Char → List Char
  | _, [] => []
  | skip, c :: rest =>
    if p c then
      if skip then collapseRuns p out true rest
      else out :: collapseRuns p out true rest
    else c :: collapseRuns p out false rest

/-- `normalizeHeaderField` (line 198-220): strip control characters,
keep the safe class, trim, collapse whitespace, and substitute the
placeholder when nothing is left. -/
def normalizeHeaderField (value : List Char) : List Char :=
  if jsTrim value = [] then []
  else
    let trimmed := jsTrim value
    let noCtrl := trimmed.filter (fun c => ¬ isCtrlChar c)
    let safe := noCtrl.filter isHeaderSafe
    let normalized := collapseRuns isJsSpace ' ' false (jsTrim safe)
    if normalized = [] then "컬럼".data else normalized

/-! ### `parseCSVLine` (converter.ts line 147-193) -/

/-- The character scan of `parseCSVLine`: state is the optional open
quote character and the current cell accumulated in reverse.  Closing
a quote at the end of input falls out of the loop exactly as in the
source; a quote character followed by the same quote inside a quoted
region is an escaped literal.  The first argument is fuel for
structural recursion: every step consumes at least one character and
exactly one unit of fuel, so with fuel ≥ line length the out-of-fuel
branch is unreachable (see `pcsv_fuel_irrelevant`). -/
def pcsv (delim : Char) : ℕ → List Char → Option Char → List Char → List (List Char)
  | _, [], _, cur => [jsTrim cur.reverse]
  | 0, _ :: _, _, cur => [jsTrim cur.reverse]
  | fuel + 1, c :: rest, none, cur =>
    if c = '"' ∨ c = '\'' then pcsv delim fuel rest (some c) cur
    else if c = delim then jsTrim cur.reverse :: pcsv delim fuel rest none []
    else pcsv delim fuel rest none (c :: cur)
  | fuel + 1, c :: rest, some q, cur =>
    if c = q then
      match rest with
      | c2 :: rest2 =>
        if c2 = q then pcsv delim fuel rest2 (some q) (q :: cur)
        else pcsv delim fuel (c2 :: rest2) none cur
      | [] => pcsv delim fuel [] none cur
    else pcsv delim fuel rest (some q) (c :: cur)

/-- `parseCSVLine` (line 147-193): trim the line, scan, and map the
final `cell || ''` normalisation over the fields. -/
def parseCSVLine (line : List Char) (delim : Char) : List (List Char) :=
  (pcsv delim (jsTrim line).length (jsTrim line) none []).map
    (fun cell => if cell = [] then [] else cell)

/-! ### `detectDelimiter` (converter.ts line 95-142) -/

/-- Candidate delimiters, in source order. -/
def delimCandidates : List Char := ['\t', ',', ';', '|']

/-- `text.split('\n').slice(0, 10).filter(line => line.trim())`. -/
def detectLines (text : List Char) : List (List Char) :=
  ((text.splitOn '\n').take 10).filter (fun l => jsTrim l ≠ [])

/-- Column counts for one candidate: naive-split each (non-blank)
sampled line and keep the counts exceeding one column. -/
def columnCounts (lines : List (List Char)) (d : Char) : List ℕ :=
  (lines.filter (fun l => jsTrim l ≠ [])).filterMap (fun l =>
    let n := (l.splitOn d).length
    if 1 < n then some n else none)

/-- The score of line 123-129:
`avg * max(consistency, 0.5) * columnCounts.length` with
`consistency = 0.8` when more than ten columns were seen and
`1 - (max - min) / max(avg, 1)` otherwise.  JS doubles are modelled
as exact rationals. -/
def delimScore (counts : List ℕ) : ℚ :=
  let len : ℚ := counts.length
  let avg : ℚ := (counts.sum : ℚ) / len
  let maxC : ℕ := (counts.max?).getD 0
  let minC : ℕ := (counts.min?).getD 0
  let consistency : ℚ :=
    if 10 < maxC then 4/5 else 1 - ((maxC : ℚ) - (minC : ℚ)) / max avg 1
  avg * max consistency (1/2) * len

/-- One iteration of the candidate loop of line 104-138: when the
candidate produced any multi-column line, its score strictly beating
the best-so-far replaces the accumulator. -/
def detectStep (lines : List (List Char)) (acc : Char × ℚ) (d : Char) : Char × ℚ :=
  let counts := columnCounts lines d
  if counts ≠ [] then
    let score := delimScore counts
    if acc.2 < score then (d, score) else acc
  else acc

/-- `detectDelimiter` (line 95-142): fold over the candidates keeping
the best strict improvement over the initial `(',', 0)`. -/
def detectDelimiter (text : List Char) : Char :=
  (delimCandidates.foldl (detectStep (detectLines text)) (',', (0 : ℚ))).1

/-- The sampling described by the specification's words (« the first
up-to-10 non-blank lines »): filter blanks first, then take ten.
Written to be compared with the source's `detectLines`, which takes
the first ten split lines and only then filters blanks. -/
def detectLinesSpec (text : List Char) : List (List Char) :=
  ((text.splitOn '\n').filter (fun l => jsTrim l ≠ [])).take 10

/-- The score formula in the specification's words: consistency uses
`avg` itself rather than `max(avg, 1)`.  Written to be compared with
the source's `delimScore`. -/
def delimScoreSpec (counts : List ℕ) : ℚ :=
  let len : ℚ := counts.length
  let avg : ℚ := (counts.sum : ℚ) / len
  let maxC : ℕ := (counts.max?).getD 0
  let minC : ℕ := (counts.min?).getD 0
  let consistency : ℚ :=
    if 10 < maxC then 4/5 else 1 - ((maxC : ℚ) - (minC : ℚ)) / avg
  avg * max consistency (1/2) * len

/-! ### `textBasedRecovery` (converter.ts line 286-420)

`detectAndDecode` (line 43-90) calls the iconv/jschardet collaborators
and never fails; its result enters the model as the `decodedText`
outcome parameter.  `parseCSVLine` and `normalizeCell` are total, so
the `catch` ladder of line 327-374 is unreachable and is not part of
the model. -/

/-- One sheet: rows of cells (the `aoa` level the source builds).  The
sheet/array conversions of the SheetJS collaborator are modelled as
the identity on this data. -/
abbrev Sheet := List (List Cell)

/-- A workbook: ordered sheets (names abstracted away). -/
abbrev Workbook := List Sheet

/-- Error payload of a JS exception (its message). -/
abbrev Err := List Char

/-- `try { x } catch (e) { h e }` at the `Except` level. -/
def tryCatch {α : Type} (x : Except Err α) (h : Err → Except Err α) : Except Err α :=
  match x with
  | .ok a => .ok a
  | .error e => h e

/-- `cells.some(cell => cell !== null && cell !== '')` — the row-keep
test of line 322/369 and the header-validity test of line 1377. -/
def someNonEmptyCell (cells : List Cell) : Bool :=
  cells.any (fun c => c ≠ .null ∧ c ≠ .str [])

/-- `text.split('\n').filter(line => line.trim())` (line 294). -/
def recoveryLines (text : List Char) : List (List Char) :=
  (text.splitOn '\n').filter (fun l => jsTrim l ≠ [])

/-- Header-cell fallback of line 315:
`normalizeHeaderField(cell) || '컬럼' + (cells.indexOf(cell) + 1)`;
`indexOf` finds the first occurrence of the raw cell value. -/
def headerCellName (cells : List (List Char)) (cell : List Char) : List Char :=
  let n := normalizeHeaderField cell
  if n = [] then "컬럼".data ++ natRepr (cells.indexOf cell + 1) else n

/-- Line 311-316: tokenize one line; the header row goes through
header normalisation, other rows through `normalizeCell`. -/
def processLine (isHeader : Bool) (delim : Char) (line : List Char) : List Cell :=
  let cells := parseCSVLine line delim
  if isHeader then cells.map (fun cell => Cell.str (headerCellName cells cell))
  else cells.map normalizeCell

/-- The main loop of line 305-375: `i` is the line index, the second
component tracks `maxColumns` (updated for every tokenized line, kept
or not); the header is always kept, other rows only when some cell is
non-empty. -/
def buildDataAux (delim : Char) : ℕ → ℕ → List (List Char) → List (List Cell) × ℕ
  | _, maxC, [] => ([], maxC)
  | i, maxC, line :: rest =>
    let processed := processLine (i = 0) delim line
    let maxC2 := max maxC processed.length
    if i = 0 ∨ someNonEmptyCell processed then
      let r := buildDataAux delim (i + 1) maxC2 rest
      (processed :: r.1, r.2)
    else buildDataAux delim (i + 1) maxC2 rest

/-- Body of `textBasedRecovery` after delimiter detection: build the
rows, right-pad every row to `maxColumns` (line 378-382), and fail
with the source's message when no row was produced (line 401-403). -/
def textRecoverWithDelim (delim : Char) (text : List Char) : Except Err Workbook :=
  let built := buildDataAux delim 0 0 (recoveryLines text)
  let data := built.1.map (fun row => row ++ List.replicate (built.2 - row.length) (Cell.str []))
  if data.length = 0 then .error "파싱된 데이터가 없습니다. 파일 형식을 확인해주세요.".data
  else .ok [data]

/-- `textBasedRecovery` (line 286-420) as a function of the decoded
text. -/
def textBasedRecovery (decodedText : List Char) : Except Err Workbook :=
  textRecoverWithDelim (detectDelimiter decodedText) decodedText

/-! ### `normalizeWorkbook` (converter.ts line 425-460) -/

/-- Line 446-448: `typeof cell === 'string' ? normalizeCell(cell) :
cell` — only string cells are re-typed; everything else, including a
`null` from `sheet_to_json(…, { defval: null })`, passes through. -/
def normalizeWorkbookCell (c : Cell) : Cell :=
  match c with
  | .str s => normalizeCell s
  | c => c

/-- `normalizeWorkbook` at the data level (sheet names and the
sheet/array collaborator round-trips abstracted away). -/
def normalizeWorkbook (wb : Workbook) : Workbook :=
  wb.map (fun sheet => sheet.map (fun row => row.map normalizeWorkbookCell))

/-! ### the Excel handler (converter.ts line 1344-1627)

The SheetJS `XLSX.read`/`sheet_to_json` calls are collaborator calls;
each attempt's outcome (a thrown error, or the first sheet grids of a
decoded workbook) is an explicit parameter.  `XLSX.write` is the
workbook-writer collaborator, assumed always successful (spec §6), so
functions return the written `Workbook` itself. -/

/-- `cell && String(cell).trim() !== ''` (line 1503/1566/1687): JS
truthiness plus non-blank stringification. `String` of a non-zero
number, of `true`, or of a `Date` is never blank. -/
def cellTruthyNonblank (c : Cell) : Bool :=
  match c with
  | .str s => s ≠ [] ∧ jsTrim s ≠ []
  | .num q => q ≠ 0
  | .bool b => b
  | .date _ _ _ => true
  | .null => false

/-- Acceptance test of the first `XLSX.read` loop (line 1368-1391):
some sheet exists, the first grid has a first row of positive length,
and that row has a cell that is neither null nor empty. -/
def wbValidData1 (wb : Workbook) : Bool :=
  match wb with
  | [] => false
  | sheet :: _ =>
    match sheet with
    | [] => false
    | row0 :: _ => row0.length ≠ 0 ∧ someNonEmptyCell row0

/-- Acceptance test of the fallback loops (line 1482-1503 and
1556-1566): some sheet exists and the first row has a truthy,
non-blank cell. -/
def wbValidData2 (wb : Workbook) : Bool :=
  match wb with
  | [] => false
  | sheet :: _ =>
    match sheet with
    | [] => false
    | row0 :: _ => row0.any cellTruthyNonblank

/-- A read-option loop: skip thrown reads and invalid grids, return
the first accepted workbook. -/
def firstValidRead (valid : Workbook → Bool) : List (Except Err Workbook) → Option Workbook
  | [] => none
  | r :: rest =>
    match r with
    | .ok wb => if valid wb then some wb else firstValidRead valid rest
    | .error _ => firstValidRead valid rest

/-- Final fallback of `convertBinaryToJsonToXlsx` (line 611-614). -/
def binJsonFallbackTable (filename : List Char) (n : ℕ) : Sheet :=
  [[.str "파일명".data, .str "크기".data, .str "상태".data, .str "비고".data],
   [.str filename, .str (natRepr n ++ " bytes".data), .str "변환 실패".data,
    .str "바이너리 파일 - 수동 확인 필요".data]]

/-- `convertBinaryToJsonToXlsx` (line 465-626): whatever the
extraction body does (outcome `mainOutcome`), the catch of line 607
answers with the fallback table, so the function never throws. -/
def convertBinaryToJsonToXlsxM (mainOutcome : Except Err Workbook)
    (filename : List Char) (n : ℕ) : Except Err Workbook :=
  tryCatch mainOutcome (fun _ => .ok [binJsonFallbackTable filename n])

/-- Catch-branch table of `handleBinaryExcelFile` (line 1611-1615). -/
def binDumpFallbackTable (filename : List Char) (n : ℕ)
    (lines : List (List Char)) : Sheet :=
  [.str "파일명".data, .str "내용".data, .str "비고".data] ::
  [.str filename, .str "바이너리 파일 - 텍스트 변환".data,
   .str ("원본 크기: ".data ++ natRepr n ++ " bytes".data)] ::
  lines.enum.map (fun p =>
    [Cell.str ("라인 ".data ++ natRepr (p.1 + 1)), Cell.str (p.2.take 500), Cell.str []])

/-- `handleBinaryExcelFile` (line 1533-1627): read-option loop, then
the JSON conversion (which cannot throw), the whole body guarded by
the catch of line 1602. -/
def handleBinaryExcelFileM (binReads : List (Except Err Workbook))
    (binJsonMain : Except Err Workbook) (filename : List Char) (n : ℕ)
    (dumpLines : List (List Char)) : Except Err Workbook :=
  tryCatch
    (match firstValidRead wbValidData2 binReads with
     | some wb => .ok (normalizeWorkbook wb)
     | none => convertBinaryToJsonToXlsxM binJsonMain filename n)
    (fun _ => .ok [binDumpFallbackTable filename n dumpLines])

/-- Outcomes of the external collaborator calls made during one
conversion: the two `XLSX.read` option loops of `handleExcelFile`, the
ZIP-scan block of line 1412-1463 (`some` = a table extracted from a
decompressed entry, `none` = no entry found, `error` = any throw
inside the block, absorbed by its catch), the read loop of
`handleBinaryExcelFile`, the body of `convertBinaryToJsonToXlsx`, the
text dump of its catch branch, the standard one-shot `XLSX.read` of
line 1662 (first sheet grids), and the `detectAndDecode` result. -/
structure ExtCalls where
  reads1 : List (Except Err Workbook)
  zipScan : Except Err (Option Workbook)
  reads2 : List (Except Err Workbook)
  binReads : List (Except Err Workbook)
  binJsonMain : Except Err Workbook
  binDumpLines : List (List Char)
  stdParse : Except Err Workbook
  decodedText : List Char

/-- `handleExcelFile` (line 1344-1528): first read loop, ZIP scan
(entered when the buffer starts with `PK`, line 1410), fallback read
loop, then the binary handler. -/
def handleExcelFileM (e : ExtCalls) (buffer : List ℕ) (filename : List Char) :
    Except Err Workbook :=
  match firstValidRead wbValidData1 e.reads1 with
  | some wb => .ok (normalizeWorkbook wb)
  | none =>
    let zipRes : Option Workbook :=
      if buffer[0]? = some 0x50 ∧ buffer[1]? = some 0x4B then
        match e.zipScan with
        | .ok r => r
        | .error _ => none
      else none
    match zipRes with
    | some out => .ok out
    | none =>
      match firstValidRead wbValidData2 e.reads2 with
      | some wb => .ok (normalizeWorkbook wb)
      | none =>
        handleBinaryExcelFileM e.binReads e.binJsonMain filename buffer.length e.binDumpLines

/-- Standard-parser stage of `convertToXlsx` (line 1658-1713): the
one-shot read plus the repo's own validity checks — `빈 워크북` when no
sheet exists (line 1673) and the empty-header rejection of line 1686-
1691. -/
def stdParseChecked (r : Except Err Workbook) : Except Err Workbook :=
  match r with
  | .error e => .error e
  | .ok wb =>
    match wb with
    | [] => .error "빈 워크북".data
    | sheet :: _ =>
      match sheet with
      | [] => .error "헤더가 비어있음 - 텍스트 복구 필요".data
      | row0 :: _ =>
        if row0.any cellTruthyNonblank then .ok wb
        else .error "헤더가 비어있음 - 텍스트 복구 필요".data

/-- ASCII lowering of a string (`filename.toLowerCase()`; only ASCII
letters occur in the extensions compared against). -/
def lowerStr (s : List Char) : List Char := s.map asciiLower

/-- `filename.toLowerCase().split('.').pop()` (line 1642). -/
def fileExtensionOf (filename : List Char) : List Char :=
  ((lowerStr filename).splitOn '.').getLastD []

/-- ZIP local-file-header test of line 1643-1645. -/
def isZipSig (buffer : List ℕ) : Bool :=
  4 ≤ buffer.length ∧ buffer[0]? = some 0x50 ∧ buffer[1]? = some 0x4B ∧
  (buffer[2]? = some 0x03 ∨ buffer[2]? = some 0x05 ∨ buffer[2]? = some 0x07)

/-- Routing test of line 1650: Excel extension or ZIP signature. -/
def excelRouted (buffer : List ℕ) (filename : List Char) : Bool :=
  fileExtensionOf filename = "xlsx".data ∨ fileExtensionOf filename = "xls".data ∨
  isZipSig buffer

/-- Message prefix of the rethrow at line 1744. -/
def convertErrorPrefix : Err := "파일 변환에 실패했습니다: ".data

/-- `convertToXlsx` (line 1632-1746): Excel routing first (before the
force flag is consulted); otherwise the standard parse (unless
forced), falling back to text recovery; normalization and the
workbook write on success; the catch of line 1742 rethrows every
text-route failure wrapped in `convertErrorPrefix`. -/
def convertToXlsx (e : ExtCalls) (buffer : List ℕ) (filename : List Char)
    (force : Bool) : Except Err Workbook :=
  if excelRouted buffer filename then handleExcelFileM e buffer filename
  else
    let inner : Except Err Workbook :=
      if force then textBasedRecovery e.decodedText
      else
        match stdParseChecked e.stdParse with
        | .ok wb => .ok wb
        | .error _ => textBasedRecovery e.decodedText
    match inner with
    | .ok wb => .ok (normalizeWorkbook wb)
    | .error msg => .error (convertErrorPrefix ++ msg)

/-- The forced-text path in isolation: text recovery of the decoded
text, normalised, errors wrapped.  Written to state that the forced
mode of `convertToXlsx` is exactly this function of the decoded text
alone. -/
def finishTextRecovery (decodedText : List Char) : Except Err Workbook :=
  match textBasedRecovery decodedText with
  | .ok wb => .ok (normalizeWorkbook wb)
  | .error msg => .error (convertErrorPrefix ++ msg)

/-! ### tail of `findMeaningfulTextInBuffer` (converter.ts line 1065-1141)

The token pool (`uniqueTexts`, line 1058) is mined from the buffer
under several Node decodings plus the sanitized filename: the mining
is collaborator-driven and enters as the parameter. -/

/-- `text.includes(sub)`: contiguous substring test. -/
def strIncludes : List Char → List Char → Bool
  | text, sub =>
    sub.isPrefixOf text ||
      match text with
      | [] => false
      | _ :: rest => strIncludes rest sub

/-- Classification of one token (line 1073-1094): type and
description. -/
def classifyToken (text : List Char) : List Char × List Char :=
  if text ≠ [] ∧ text.all isKoreanSyllable then
    ("한글".data,
      if strIncludes text "주문".data ∨ strIncludes text "번호".data then "주문 관련".data
      else if strIncludes text "배송".data ∨ strIncludes text "택배".data then "배송 관련".data
      else if strIncludes text "연락".data ∨ strIncludes text "전화".data then "연락처 관련".data
      else "한글 텍스트".data)
  else if text ≠ [] ∧ text.all (fun c => ('a' ≤ c ∧ c ≤ 'z') ∨ ('A' ≤ c ∧ c ≤ 'Z')) then
    ("영문".data, "업무 키워드".data)
  else if text ≠ [] ∧ text.all isDigit then
    ("숫자".data,
      if 8 ≤ text.length then "주문번호/ID".data
      else if text.length = 5 then "우편번호".data
      else "기타 숫자".data)
  else ("복합".data, "전화번호/주소 등".data)

/-- One data row of the classified table (line 1096-1101). -/
def meaningfulRow (text : List Char) : List Cell :=
  [Cell.str (normalizeHeaderField text), Cell.str (classifyToken text).1,
   Cell.str (natRepr text.length), Cell.str (classifyToken text).2]

/-- Header row of line 1070. -/
def meaningfulHeader : List Cell :=
  [Cell.str "발견된 텍스트".data, Cell.str "타입".data, Cell.str "길이".data,
   Cell.str "설명".data]

/-- The zero-token fallback of line 1124-1130: a two-column key/value
table of four data rows. -/
def meaningfulFallbackTable (filename : List Char) (n : ℕ) : Sheet :=
  [[.str "상태".data, .str "설명".data],
   [.str "파일 손상".data, .str "의미있는 텍스트를 찾을 수 없습니다".data],
   [.str "파일명".data, .str filename],
   [.str "파일 크기".data, .str (natRepr n ++ " bytes".data)],
   [.str "권장사항".data, .str "원본 파일을 다시 확인해주세요".data]]

/-- Table emitted by `findMeaningfulTextInBuffer` as a function of the
mined token pool: classified rows when any token survives, the
diagnostic fallback otherwise. -/
def findMeaningfulTextTable (uniqueTexts : List (List Char))
    (filename : List Char) (n : ℕ) : Sheet :=
  if 0 < uniqueTexts.length then meaningfulHeader :: uniqueTexts.map meaningfulRow
  else meaningfulFallbackTable filename n

/-! ### `processFile` and validation (converter.ts line 15-38, 1764-1816) -/

/-- `SUPPORTED_EXTENSIONS` (line 7). -/
def SUPPORTED_EXTENSIONS : List (List Char) :=
  [".xls".data, ".xlsx".data, ".csv".data, ".tsv".data, ".txt".data]

/-- `MAX_FILE_SIZE` (line 10). -/
def MAX_FILE_SIZE : ℕ := 50 * 1024 * 1024

/-- `filename.toLowerCase().substring(filename.lastIndexOf('.'))`
(line 16): the suffix from the last dot, or the whole lowercased name
when there is no dot (JS `substring(-1)` clamps to 0).  `'.'` is not
case-mapped, so positions in the lowercased string align. -/
def extFromLastDot (filename : List Char) : List Char :=
  let lower := lowerStr filename
  if filename.contains '.' then
    '.' :: ((lower.reverse.takeWhile (fun c => c ≠ '.')).reverse)
  else lower

/-- `validateFileExtension` (line 15-18). -/
def validateFileExtension (filename : List Char) : Bool :=
  SUPPORTED_EXTENSIONS.contains (extFromLastDot filename)

/-- `validateFileSize` (line 23-25). -/
def validateFileSize (size : ℕ) : Bool := size ≤ MAX_FILE_SIZE

/-- Class kept by `sanitizeFilename`'s regex `[^\w가-힣.\-_]`. -/
def isSanitizeSafe (c : Char) : Bool :=
  isWordChar c ∨ isKoreanSyllable c ∨ c = '.' ∨ c = '-' ∨ c = '_'

/-- `sanitizeFilename` (line 30-38). -/
def sanitizeFilename (filename : List Char) : List Char :=
  let replaced := filename.map (fun c => if isSanitizeSafe c then c else '_')
  let collapsed := collapseRuns (fun c => c = '_') '_' false replaced
  let trimmed := jsTrim collapsed
  if trimmed = [] then "converted_file".data else trimmed

/-- `filename.replace(/\.[^.]+$/, '')` (line 1785): strip a final
extension of at least one non-dot character. -/
def stripFileExt (f : List Char) : List Char :=
  let r := f.reverse
  let ext := r.takeWhile (fun c => c ≠ '.')
  if ext.length < r.length ∧ ext ≠ [] then (r.drop (ext.length + 1)).reverse else f

/-- `ConversionResult` (line 1751-1759); the converted buffer is
modelled as the workbook it encodes, its byte size separately. -/
structure ConversionResult where
  success : Bool
  buffer? : Option Workbook
  filename : List Char
  originalSize : ℕ
  convertedSize? : Option ℕ
  message? : Option (List Char)
  warnings? : Option (List (List Char))
deriving DecidableEq, Repr

/-- Failure result built by the catch of line 1808-1815. -/
def failureResult (originalFilename : List Char) (n : ℕ) (msg : List Char) :
    ConversionResult :=
  { success := false, buffer? := none, filename := originalFilename,
    originalSize := n, convertedSize? := none, message? := some msg,
    warnings? := none }

/-- The two size warnings of line 1790-1795, as exact comparisons
(`conv/orig > 3 ⇔ conv > 3·orig`, also at `orig = 0` where JS gets
`Infinity` or `NaN`; `conv/orig < 0.1 ⇔ 10·conv < orig` given
`orig > 1000`). -/
def sizeWarnings (origLen convLen : ℕ) : List (List Char) :=
  if 3 * origLen < convLen then
    ["변환된 파일이 원본보다 상당히 큽니다. 데이터 확인을 권장합니다.".data]
  else if 10 * convLen < origLen ∧ 1000 < origLen then
    ["변환된 파일이 원본보다 상당히 작습니다. 데이터 손실이 있을 수 있습니다.".data]
  else []

/-- `processFile` (line 1764-1816): validation, conversion (outcome
`conv`: the converted workbook and its byte size, or the thrown
message), result assembly; every throw lands in the catch and becomes
a failure result. -/
def processFile (buffer : List ℕ) (originalFilename : List Char)
    (conv : Except Err (Workbook × ℕ)) : ConversionResult :=
  if ¬ validateFileExtension originalFilename then
    failureResult originalFilename buffer.length
      ("지원하지 않는 파일 형식입니다. 지원 형식: ".data ++
        List.intercalate ", ".data SUPPORTED_EXTENSIONS)
  else if ¬ validateFileSize buffer.length then
    failureResult originalFilename buffer.length
      ("파일이 너무 큽니다. 최대 크기: ".data ++
        natRepr (MAX_FILE_SIZE / 1024 / 1024) ++ "MB".data)
  else
    match conv with
    | .error msg => failureResult originalFilename buffer.length msg
    | .ok (wb, convLen) =>
      { success := true, buffer? := some wb,
        filename := sanitizeFilename (stripFileExt originalFilename) ++ "_변환완료.xlsx".data,
        originalSize := buffer.length, convertedSize? := some convLen,
        message? := none,
        warnings? := if sizeWarnings buffer.length convLen = [] then none
          else some (sizeWarnings buffer.length convLen) }

/-- `Except` success test (collapsed to `Bool`). -/
def isOkE {α : Type} : Except Err α → Bool
  | .ok _ => true
  | .error _ => false

/-- Decidable equality of collaborator outcomes, for evaluating the
model on concrete inputs. -/
instance {ε α : Type} [DecidableEq ε] [DecidableEq α] : DecidableEq (Except ε α)
  | .ok a, .ok b =>
    if h : a = b then .isTrue (by rw [h]) else .isFalse (by intro hc; cases hc; exact h rfl)
  | .ok _, .error _ => .isFalse (by intro hc; cases hc)
  | .error _, .ok _ => .isFalse (by intro hc; cases hc)
  | .error a, .error b =>
    if h : a = b then .isTrue (by rw [h]) else .isFalse (by intro hc; cases hc; exact h rfl)

end ExcelConvert

namespace ExcelConvert

/-! ### Trimming lemmas -/

theorem length_dropWhile_le' (p : Char → Bool) (l : List Char) :
    (l.dropWhile p).length ≤ l.length := by
  induction l with
  | nil => simp
  | cons c rest ih =>
    simp only [List.dropWhile]
    cases h : p c <;> simp [ih]
    omega

theorem dropWhile_dropWhile (p : Char → Bool) (l : List Char) :
    (l.dropWhile p).dropWhile p = l.dropWhile p := by
  induction l with
  | nil => rfl
  | cons c rest ih =>
    simp only [List.dropWhile]
    cases h : p c
    · simp [List.dropWhile, h]
    · exact ih

theorem dropWhile_append_self (p : Char → Bool) (t s : List Char)
    (h : (t ++ s).dropWhile p = t ++ s) : t.dropWhile p = t := by
  cases t with
  | nil => rfl
  | cons c r =>
    have hc : p c = false := by
      by_contra hc
      have hc' : p c = true := by
        cases h' : p c
        · exact absurd h' hc
        · rfl
      have h1 : ((c :: r ++ s).dropWhile p).length ≤ (r ++ s).length := by
        simp only [List.cons_append, List.dropWhile, hc']
        exact length_dropWhile_le' p _
      rw [h] at h1
      simp at h1
    simp [List.dropWhile, hc]

theorem jsTrim_idem (l : List Char) : jsTrim (jsTrim l) = jsTrim l := by
  set p := isJsSpace with hp
  set A := l.dropWhile p with hA
  set B := A.reverse.dropWhile p with hB
  have hT : jsTrim l = B.reverse := rfl
  have hright : B.dropWhile p = B := by
    rw [hB]; exact dropWhile_dropWhile p A.reverse
  have hsplit : A.reverse = A.reverse.takeWhile p ++ B := by
    rw [hB]; exact (List.takeWhile_append_dropWhile p A.reverse).symm
  have hAeq : A = B.reverse ++ (A.reverse.takeWhile p).reverse := by
    have := congrArg List.reverse hsplit
    simpa using this
  have hAdrop : A.dropWhile p = A := by
    rw [hA]; exact dropWhile_dropWhile p l
  have hleft : B.reverse.dropWhile p = B.reverse := by
    apply dropWhile_append_self p B.reverse (A.reverse.takeWhile p).reverse
    rw [← hAeq]; exact hAdrop
  rw [hT]
  show ((B.reverse.dropWhile p).reverse.dropWhile p).reverse = B.reverse
  rw [hleft]
  simp only [List.reverse_reverse]
  rw [hright]

/-! ### `parseCSVLine`: every emitted field is trimmed (claim C8) -/

theorem pcsv_mem_trimmed (delim : Char) :
    ∀ (fuel : ℕ) (l : List Char) (st : Option Char) (cur : List Char),
      ∀ f ∈ pcsv delim fuel l st cur, jsTrim f = f := by
  intro fuel
  induction fuel with
  | zero =>
    intro l st cur f hf
    cases l with
    | nil =>
      simp only [pcsv, List.mem_singleton] at hf
      subst hf; exact jsTrim_idem _
    | cons c rest =>
      simp only [pcsv, List.mem_singleton] at hf
      subst hf; exact jsTrim_idem _
  | succ fuel ih =>
    intro l st cur f hf
    cases l with
    | nil =>
      simp only [pcsv, List.mem_singleton] at hf
      subst hf; exact jsTrim_idem _
    | cons c rest =>
      cases st with
      | none =>
        simp only [pcsv] at hf
        split at hf
        · exact ih rest (some c) cur f hf
        · split at hf
          · rcases List.mem_cons.mp hf with h | h
            · subst h; exact jsTrim_idem _
            · exact ih rest none [] f h
          · exact ih rest none (c :: cur) f hf
      | some q =>
        cases rest with
        | nil =>
          simp only [pcsv] at hf
          by_cases hq : c = q
          · simp only [hq, if_true] at hf
            simp only [List.mem_singleton] at hf
            subst hf; exact jsTrim_idem _
          · simp only [hq, if_false] at hf
            simp only [List.mem_singleton] at hf
            subst hf; exact jsTrim_idem _
        | cons c2 rest2 =>
          simp only [pcsv] at hf
          split at hf
          · split at hf
            · exact ih rest2 (some q) (q :: cur) f hf
            · exact ih (c2 :: rest2) none cur f hf
          · exact ih (c2 :: rest2) (some q) (c :: cur) f hf

theorem parseCSVLine_trimmed (line : List Char) (delim : Char) :
    ∀ f ∈ parseCSVLine line delim, jsTrim f = f := by
  intro f hf
  simp only [parseCSVLine, List.mem_map] at hf
  obtain ⟨cell, hcell, hf⟩ := hf
  by_cases h : cell = []
  · subst hf; simp [h, jsTrim]
  · have := pcsv_mem_trimmed delim (jsTrim line).length (jsTrim line) none [] cell hcell
    subst hf; simp [h, this]

/-- C8: the line tokenizer honors quoting — a delimiter inside a
quoted region (opened by `"` or `'`) is inert, a doubled quote inside
the region is an escaped literal, every emitted field is trimmed, and
tokenization is total by construction (the scan never throws).  In
particular `'"a,b",c'` with delimiter `,` yields `["a,b", "c"]`. -/
theorem parseCSVLine_spec :
    parseCSVLine "\"a,b\",c".data ',' = ["a,b".data, "c".data] ∧
    parseCSVLine "\"a\"\"b\"".data ',' = ["a\"b".data] ∧
    parseCSVLine "'x,y',z".data ',' = ["x,y".data, "z".data] ∧
    ∀ (line : List Char) (delim : Char), ∀ f ∈ parseCSVLine line delim, jsTrim f = f :=
  ⟨by decide, by decide, by decide, fun line delim => parseCSVLine_trimmed line delim⟩

/-- Witness for `parseCSVLine_spec`: its trimming part applied to a
concrete field of a concrete tokenization. -/
theorem parseCSVLine_spec_witness : jsTrim "c".data = "c".data :=
  parseCSVLine_spec.2.2.2 "\"a,b\",c".data ',' "c".data (by decide)

/-! ### Delimiter detection (claim C6) -/

theorem columnCounts_mem {lines : List (List Char)} {d : Char} {n : ℕ}
    (h : n ∈ columnCounts lines d) : 1 < n := by
  simp only [columnCounts, List.mem_filterMap] at h
  obtain ⟨l, -, hl⟩ := h
  split at hl
  · cases hl; assumption
  · cases hl

theorem delimScore_pos {counts : List ℕ} (hne : counts ≠ [])
    (hmem : ∀ n ∈ counts, 1 < n) : 0 < delimScore counts := by
  have hlen : 0 < counts.length := List.length_pos.mpr hne
  have hsum : 0 < counts.sum :=
    List.sum_pos counts (fun n hn => by have := hmem n hn; omega) hne
  have hlenQ : (0 : ℚ) < counts.length := by exact_mod_cast hlen
  have hsumQ : (0 : ℚ) < counts.sum := by exact_mod_cast hsum
  have havg : (0 : ℚ) < (counts.sum : ℚ) / counts.length := div_pos hsumQ hlenQ
  simp only [delimScore]
  refine mul_pos (mul_pos havg ?_) hlenQ
  exact lt_of_lt_of_le (by norm_num) (le_max_right _ _)

theorem detectStep_empty {lines : List (List Char)} {d : Char} (acc : Char × ℚ)
    (h : columnCounts lines d = []) : detectStep lines acc d = acc := by
  simp [detectStep, h]

theorem detectStep_cases (lines : List (List Char)) (acc : Char × ℚ) (d : Char) :
    detectStep lines acc d = acc ∨
      (detectStep lines acc d = (d, delimScore (columnCounts lines d)) ∧
        columnCounts lines d ≠ [] ∧ acc.2 < delimScore (columnCounts lines d)) := by
  simp only [detectStep]
  split
  · split
    · right; exact ⟨rfl, by assumption, by assumption⟩
    · left; rfl
  · left; rfl

theorem detectStep_snd_mono (lines : List (List Char)) (acc : Char × ℚ) (d : Char) :
    acc.2 ≤ (detectStep lines acc d).2 := by
  rcases detectStep_cases lines acc d with h | ⟨h, -, hlt⟩
  · rw [h]
  · rw [h]; exact le_of_lt hlt

theorem detectStep_bound (lines : List (List Char)) (acc : Char × ℚ) (d : Char)
    (h : columnCounts lines d ≠ []) :
    delimScore (columnCounts lines d) ≤ (detectStep lines acc d).2 := by
  simp only [detectStep, h, ne_eq, not_false_eq_true, if_true]
  split
  · simp
  · simp only [not_lt] at *; linarith

theorem detectFold_snd_mono (lines : List (List Char)) :
    ∀ (cs : List Char) (acc : Char × ℚ),
      acc.2 ≤ (cs.foldl (detectStep lines) acc).2 := by
  intro cs
  induction cs with
  | nil => intro acc; simp
  | cons d cs ih =>
    intro acc
    calc acc.2 ≤ (detectStep lines acc d).2 := detectStep_snd_mono lines acc d
    _ ≤ _ := by simpa using ih (detectStep lines acc d)

/-- Loop invariant of `detectDelimiter`'s candidate fold. -/
theorem detectFold_inv (lines : List (List Char)) :
    ∀ (cs : List Char) (acc : Char × ℚ),
      0 ≤ acc.2 →
      (acc.2 = 0 → acc.1 = ',') →
      (0 < acc.2 → columnCounts lines acc.1 ≠ [] ∧
        delimScore (columnCounts lines acc.1) = acc.2) →
      (0 ≤ (cs.foldl (detectStep lines) acc).2 ∧
        ((cs.foldl (detectStep lines) acc).2 = 0 →
          (cs.foldl (detectStep lines) acc).1 = ',') ∧
        (0 < (cs.foldl (detectStep lines) acc).2 →
          columnCounts lines (cs.foldl (detectStep lines) acc).1 ≠ [] ∧
          delimScore (columnCounts lines (cs.foldl (detectStep lines) acc).1) =
            (cs.foldl (detectStep lines) acc).2) ∧
        ((cs.foldl (detectStep lines) acc).1 = acc.1 ∨
          (cs.foldl (detectStep lines) acc).1 ∈ cs) ∧
        (∀ d ∈ cs, columnCounts lines d ≠ [] →
          delimScore (columnCounts lines d) ≤ (cs.foldl (detectStep lines) acc).2)) := by
  intro cs
  induction cs with
  | nil =>
    intro acc h0 hq hv
    exact ⟨h0, hq, hv, Or.inl rfl, by simp⟩
  | cons d cs ih =>
    intro acc h0 hq hv
    have hstep0 : 0 ≤ (detectStep lines acc d).2 :=
      le_trans h0 (detectStep_snd_mono lines acc d)
    have hstepq : (detectStep lines acc d).2 = 0 → (detectStep lines acc d).1 = ',' := by
      intro hz
      rcases detectStep_cases lines acc d with h | ⟨h, hne, hlt⟩
      · rw [h] at hz ⊢; exact hq hz
      · exfalso
        have hpos : 0 < delimScore (columnCounts lines d) :=
          delimScore_pos hne (fun n hn => columnCounts_mem hn)
        rw [h] at hz
        simp at hz
        rw [hz] at hpos
        exact lt_irrefl 0 hpos
    have hstepv : 0 < (detectStep lines acc d).2 →
        columnCounts lines (detectStep lines acc d).1 ≠ [] ∧
        delimScore (columnCounts lines (detectStep lines acc d).1) =
          (detectStep lines acc d).2 := by
      intro hpos
      rcases detectStep_cases lines acc d with h | ⟨h, hne, hlt⟩
      · rw [h] at hpos ⊢; exact hv hpos
      · rw [h]; exact ⟨hne, rfl⟩
    obtain ⟨r0, rq, rv, rw1, rb⟩ := ih (detectStep lines acc d) hstep0 hstepq hstepv
    simp only [List.foldl_cons]
    refine ⟨r0, rq, rv, ?_, ?_⟩
    · rcases rw1 with h | h
      · rcases detectStep_cases lines acc d with hs | ⟨hs, -, -⟩
        · left; rw [h, hs]
        · right; rw [h, hs]; exact List.mem_cons_self d cs
      · right; exact List.mem_cons_of_mem d h
    · intro d2 hd2 hne2
      rcases List.mem_cons.mp hd2 with h | h
      · subst h
        calc delimScore (columnCounts lines d2) ≤ (detectStep lines acc d2).2 :=
              detectStep_bound lines acc d2 hne2
        _ ≤ _ := detectFold_snd_mono lines cs (detectStep lines acc d2)
      · exact rb d2 h hne2

theorem detectDelimiter_comma_default (text : List Char)
    (h : ∀ d ∈ delimCandidates, columnCounts (detectLines text) d = []) :
    detectDelimiter text = ',' := by
  have ht := h '\t' (by simp [delimCandidates])
  have hc := h ',' (by simp [delimCandidates])
  have hs := h ';' (by simp [delimCandidates])
  have hp := h '|' (by simp [delimCandidates])
  simp only [detectDelimiter, delimCandidates, List.foldl_cons, List.foldl_nil,
    detectStep_empty _ ht, detectStep_empty _ hc, detectStep_empty _ hs,
    detectStep_empty _ hp]

theorem detectDelimiter_argmax (text : List Char) (d : Char)
    (hd : d ∈ delimCandidates) (hne : columnCounts (detectLines text) d ≠ []) :
    columnCounts (detectLines text) (detectDelimiter text) ≠ [] ∧
      delimScore (columnCounts (detectLines text) d) ≤
        delimScore (columnCounts (detectLines text) (detectDelimiter text)) := by
  obtain ⟨r0, rq, rv, rw1, rb⟩ :=
    detectFold_inv (detectLines text) delimCandidates (',', (0 : ℚ))
      le_rfl (fun _ => rfl) (fun h => absurd h (lt_irrefl 0))
  have hscore : 0 < delimScore (columnCounts (detectLines text) d) :=
    delimScore_pos hne (fun n hn => columnCounts_mem hn)
  have hbound := rb d hd hne
  have hrpos : 0 < (delimCandidates.foldl (detectStep (detectLines text)) (',', (0 : ℚ))).2 :=
    lt_of_lt_of_le hscore hbound
  obtain ⟨hne2, heq⟩ := rv hrpos
  refine ⟨hne2, ?_⟩
  rw [detectDelimiter] at *
  rw [heq]
  exact hbound

theorem detectDelimiter_comma_of (text : List Char)
    (ht : columnCounts (detectLines text) '\t' = [])
    (hs : columnCounts (detectLines text) ';' = [])
    (hp : columnCounts (detectLines text) '|' = []) :
    detectDelimiter text = ',' := by
  by_cases hc : columnCounts (detectLines text) ',' = []
  · apply detectDelimiter_comma_default
    intro d hd
    simp only [delimCandidates, List.mem_cons, List.not_mem_nil, or_false] at hd
    rcases hd with rfl | rfl | rfl | rfl
    · exact ht
    · exact hc
    · exact hs
    · exact hp
  · obtain ⟨r0, rq, rv, rw1, rb⟩ :=
      detectFold_inv (detectLines text) delimCandidates (',', (0 : ℚ))
        le_rfl (fun _ => rfl) (fun h => absurd h (lt_irrefl 0))
    set r := delimCandidates.foldl (detectStep (detectLines text)) (',', (0 : ℚ)) with hr
    have hscore : 0 < delimScore (columnCounts (detectLines text) ',') :=
      delimScore_pos hc (fun n hn => columnCounts_mem hn)
    have hbound := rb ',' (by simp [delimCandidates]) hc
    have hrpos : 0 < r.2 := lt_of_lt_of_le hscore hbound
    obtain ⟨hne2, -⟩ := rv hrpos
    show r.1 = ','
    rcases rw1 with h | h
    · exact h
    · have h4 : r.1 = '\t' ∨ r.1 = ',' ∨ r.1 = ';' ∨ r.1 = '|' := by
        simpa [delimCandidates] using h
      rcases h4 with h1 | h1 | h1 | h1
      · exfalso; rw [h1] at hne2; exact hne2 ht
      · exact h1
      · exfalso; rw [h1] at hne2; exact hne2 hs
      · exfalso; rw [h1] at hne2; exact hne2 hp

theorem two_mul_length_le_sum :
    ∀ counts : List ℕ, (∀ n ∈ counts, 2 ≤ n) → 2 * counts.length ≤ counts.sum := by
  intro counts
  induction counts with
  | nil => simp
  | cons n rest ih =>
    intro h
    have hn := h n (List.mem_cons_self n rest)
    have := ih (fun m hm => h m (List.mem_cons_of_mem n hm))
    simp only [List.length_cons, List.sum_cons]
    omega

/-- On the counts actually produced by `columnCounts` (all exceeding
one column) the code's `max(avg, 1)` denominator coincides with the
specification's `avg`. -/
theorem delimScore_eq_spec {counts : List ℕ} (hne : counts ≠ [])
    (hmem : ∀ n ∈ counts, 1 < n) : delimScore counts = delimScoreSpec counts := by
  have h2 : 2 * counts.length ≤ counts.sum :=
    two_mul_length_le_sum counts (fun n hn => hmem n hn)
  have hlen : 0 < counts.length := List.length_pos.mpr hne
  have hlenQ : (0 : ℚ) < counts.length := by exact_mod_cast hlen
  have havg1 : (1 : ℚ) ≤ (counts.sum : ℚ) / counts.length := by
    rw [le_div_iff₀ hlenQ]
    have : (2 * counts.length : ℚ) ≤ (counts.sum : ℚ) := by exact_mod_cast h2
    linarith
  simp only [delimScore, delimScoreSpec, max_eq_left havg1]

/-- C6 (amended): the detector returns a candidate whose score — over
the non-blank lines among the first ten split lines — is maximal among
candidates producing any multi-column line, defaults to comma when no
candidate does, uses the claimed score formula on every reachable
count list, and returns comma on `"a,b,c\n1,2,3\n4,5,6"`. -/
theorem detectDelimiter_spec :
    detectDelimiter "a,b,c\n1,2,3\n4,5,6".data = ',' ∧
    (∀ text, (∀ d ∈ delimCandidates, columnCounts (detectLines text) d = []) →
      detectDelimiter text = ',') ∧
    (∀ text d, d ∈ delimCandidates → columnCounts (detectLines text) d ≠ [] →
      delimScore (columnCounts (detectLines text) d) ≤
        delimScore (columnCounts (detectLines text) (detectDelimiter text))) ∧
    (∀ counts : List ℕ, counts ≠ [] → (∀ n ∈ counts, 1 < n) →
      delimScore counts = delimScoreSpec counts) :=
  ⟨detectDelimiter_comma_of _ (by decide) (by decide) (by decide),
    fun text h => detectDelimiter_comma_default text h,
    fun text d hd hne => (detectDelimiter_argmax text d hd hne).2,
    fun _ hne hmem => delimScore_eq_spec hne hmem⟩

/-- Witness for `detectDelimiter_spec`: the argmax part at a concrete
text where the semicolon candidate is scored. -/
theorem detectDelimiter_spec_witness :
    delimScore (columnCounts (detectLines "a;b\nc;d".data) ';') ≤
      delimScore (columnCounts (detectLines "a;b\nc;d".data)
        (detectDelimiter "a;b\nc;d".data)) :=
  detectDelimiter_spec.2.2.1 "a;b\nc;d".data ';' (by decide) (by decide)

/-- C6 counterexample (sampling): the claim computes scores « over the
first up-to-10 non-blank lines » (`detectLinesSpec`), but the source
samples the non-blank lines among the first ten split lines
(`detectLines`).  On a text opening with nine blank lines the detector
returns comma although, over the claim's sample, the semicolon
candidate scores strictly higher. -/
theorem detectDelimiter_sample_counterexample :
    detectDelimiter "\n\n\n\n\n\n\n\n\na,b\na;b;c;d".data = ',' ∧
    delimScore (columnCounts (detectLinesSpec "\n\n\n\n\n\n\n\n\na,b\na;b;c;d".data) ',') <
      delimScore (columnCounts (detectLinesSpec "\n\n\n\n\n\n\n\n\na,b\na;b;c;d".data) ';') := by
  constructor
  · exact detectDelimiter_comma_of _ (by decide) (by decide) (by decide)
  · have h1 : columnCounts (detectLinesSpec "\n\n\n\n\n\n\n\n\na,b\na;b;c;d".data) ',' = [2] := by
      decide
    have h2 : columnCounts (detectLinesSpec "\n\n\n\n\n\n\n\n\na,b\na;b;c;d".data) ';' = [4] := by
      decide
    have e1 : delimScore [2] = 2 := by
      simp only [delimScore, List.max?, List.min?, List.sum_cons, List.sum_nil,
        List.length_cons, List.length_nil]
      norm_num [max_def]
    have e2 : delimScore [4] = 4 := by
      simp only [delimScore, List.max?, List.min?, List.sum_cons, List.sum_nil,
        List.length_cons, List.length_nil]
      norm_num [max_def]
    rw [h1, h2, e1, e2]
    norm_num

/-! ### `normalizeCell` on the claimed inputs (claim C5) -/

/-- C5: the cell normalizer applies its rules first-match-wins, giving
`"1,234.5" ↦ 1234.5`, `"50%" ↦ 0.5`, `"2024-01-01" ↦` the date
2024-01-01, `"(123)" ↦` the string `"(123)"`, and `"참" ↦ true`. -/
theorem normalizeCell_examples :
    normalizeCell "1,234.5".data = Cell.num (1234.5 : ℚ) ∧
    normalizeCell "50%".data = Cell.num (0.5 : ℚ) ∧
    normalizeCell "2024-01-01".data = Cell.date 2024 1 1 ∧
    normalizeCell "(123)".data = Cell.str "(123)".data ∧
    normalizeCell "참".data = Cell.bool true := by
  refine ⟨?_, ?_, by decide, by decide, by decide⟩
  · have h : normalizeCell "1,234.5".data = Cell.num (mkRat 2469 2) := by decide
    rw [h]
    norm_num [Rat.mkRat_eq_div]
  · have h : normalizeCell "50%".data = Cell.num (mkRat 50 1 / 100) := rfl
    rw [h]
    simp only [Cell.num.injEq]
    norm_num [Rat.mkRat_eq_div]

/-! ### Rectangularity of text recovery (claim C7) -/

theorem buildDataAux_maxCols (delim : Char) :
    ∀ (lines : List (List Char)) (i maxC : ℕ),
      maxC ≤ (buildDataAux delim i maxC lines).2 ∧
      ∀ row ∈ (buildDataAux delim i maxC lines).1,
        row.length ≤ (buildDataAux delim i maxC lines).2 := by
  intro lines
  induction lines with
  | nil =>
    intro i maxC
    refine ⟨le_rfl, ?_⟩
    intro row h
    simp [buildDataAux] at h
  | cons line rest ih =>
    intro i maxC
    simp only [buildDataAux]
    split
    · obtain ⟨h1, h2⟩ := ih (i + 1) (max maxC (processLine (i = 0) delim line).length)
      refine ⟨le_trans (le_max_left _ _) h1, ?_⟩
      intro row hrow
      rcases List.mem_cons.mp hrow with rfl | h
      · exact le_trans (le_trans (le_max_right _ _) h1) le_rfl
      · exact h2 row h
    · obtain ⟨h1, h2⟩ := ih (i + 1) (max maxC (processLine (i = 0) delim line).length)
      exact ⟨le_trans (le_max_left _ _) h1, h2⟩

/-- C7: rectangularity — whenever delimited-text recovery succeeds,
every kept row of the produced table has length equal to the maximum
row length observed while tokenizing (`maxColumns`, the second
component of `buildDataAux`), shorter rows having been right-padded
with empty-string cells. -/
theorem textRecovery_rectangular (text : List Char) (wb : Workbook)
    (h : textBasedRecovery text = .ok wb) :
    ∀ table ∈ wb, ∀ row ∈ table,
      row.length = (buildDataAux (detectDelimiter text) 0 0 (recoveryLines text)).2 := by
  intro table htab row hrow
  simp only [textBasedRecovery, textRecoverWithDelim] at h
  split at h
  · cases h
  · cases h
    simp only [List.mem_singleton] at htab
    subst htab
    simp only [List.mem_map] at hrow
    obtain ⟨row0, hrow0, rfl⟩ := hrow
    obtain ⟨-, hle⟩ :=
      buildDataAux_maxCols (detectDelimiter text) (recoveryLines text) 0 0
    have := hle row0 hrow0
    simp only [List.length_append, List.length_replicate]
    omega

/-- Witness for `textRecovery_rectangular`: the padded second row of
the recovery of `"a,b\nc"` has the observed maximum length. -/
theorem textRecovery_rectangular_witness :
    [Cell.str "c".data, Cell.str []].length =
      (buildDataAux (detectDelimiter "a,b\nc".data) 0 0
        (recoveryLines "a,b\nc".data)).2 := by
  have hd : detectDelimiter "a,b\nc".data = ',' :=
    detectDelimiter_comma_of _ (by decide) (by decide) (by decide)
  have hok : textBasedRecovery "a,b\nc".data =
      .ok [[[Cell.str "a".data, Cell.str "b".data],
            [Cell.str "c".data, Cell.str []]]] := by
    rw [textBasedRecovery, hd]; decide
  exact textRecovery_rectangular "a,b\nc".data
    [[[Cell.str "a".data, Cell.str "b".data], [Cell.str "c".data, Cell.str []]]] hok
    [[Cell.str "a".data, Cell.str "b".data], [Cell.str "c".data, Cell.str []]] (by simp)
    [Cell.str "c".data, Cell.str []] (by simp)

/-! ### Null-freeness (claim C4) -/

theorem normalizeCellNum_ne_null {t : List Char} {c : Cell}
    (h : normalizeCellNum t = some c) : c ≠ Cell.null := by
  simp only [normalizeCellNum] at h
  split at h
  · simp only [Option.map_eq_some'] at h
    obtain ⟨q, -, rfl⟩ := h
    simp
  · cases h

theorem normalizeCellPct_ne_null {t : List Char} {c : Cell}
    (h : normalizeCellPct t = some c) : c ≠ Cell.null := by
  simp only [normalizeCellPct] at h
  split at h
  · simp only [Option.map_eq_some'] at h
    obtain ⟨q, -, rfl⟩ := h
    simp
  · cases h

theorem normalizeCellDate_ne_null {t : List Char} {c : Cell}
    (h : normalizeCellDate t = some c) : c ≠ Cell.null := by
  simp only [normalizeCellDate] at h
  split at h
  · split at h
    · cases h; simp
    · cases h
  · cases h

theorem normalizeCellBool_ne_null {t : List Char} {c : Cell}
    (h : normalizeCellBool t = some c) : c ≠ Cell.null := by
  simp only [normalizeCellBool] at h
  split at h
  · cases h; simp
  · split at h
    · cases h; simp
    · cases h

/-- `normalizeCell` never returns the null marker: absent data becomes
the empty string. -/
theorem normalizeCell_ne_null (s : List Char) : normalizeCell s ≠ Cell.null := by
  simp only [normalizeCell]
  split
  · simp
  · split
    · simp
    · split
      · next heq => exact normalizeCellNum_ne_null heq
      · split
        · next heq => exact normalizeCellPct_ne_null heq
        · split
          · next heq => exact normalizeCellDate_ne_null heq
          · split
            · next heq => exact normalizeCellBool_ne_null heq
            · simp

theorem processLine_ne_null (isHeader : Bool) (delim : Char) (line : List Char) :
    ∀ c ∈ processLine isHeader delim line, c ≠ Cell.null := by
  intro c hc
  simp only [processLine] at hc
  split at hc
  · simp only [List.mem_map] at hc
    obtain ⟨x, -, rfl⟩ := hc
    simp
  · simp only [List.mem_map] at hc
    obtain ⟨x, -, rfl⟩ := hc
    exact normalizeCell_ne_null x

theorem buildDataAux_nullfree (delim : Char) :
    ∀ (lines : List (List Char)) (i maxC : ℕ),
      ∀ row ∈ (buildDataAux delim i maxC lines).1, ∀ c ∈ row, c ≠ Cell.null := by
  intro lines
  induction lines with
  | nil =>
    intro i maxC row h
    simp [buildDataAux] at h
  | cons line rest ih =>
    intro i maxC row hrow
    simp only [buildDataAux] at hrow
    split at hrow
    · rcases List.mem_cons.mp hrow with rfl | h
      · exact processLine_ne_null (i = 0) delim line
      · exact ih (i + 1) _ row h
    · exact ih (i + 1) _ row hrow

/-- C4 (amended): `normalizeCell` never produces a null marker; every
cell of a successful delimited-text recovery is non-null; and
`normalizeWorkbook` preserves null-freeness — but, being a pass-
through for non-string cells, it does not establish it (see
`nullFree_counterexample`). -/
theorem nullFree_spec :
    (∀ s, normalizeCell s ≠ Cell.null) ∧
    (∀ text wb, textBasedRecovery text = .ok wb →
      ∀ table ∈ wb, ∀ row ∈ table, Cell.null ∉ row) ∧
    (∀ wb : Workbook, (∀ sheet ∈ wb, ∀ row ∈ sheet, Cell.null ∉ row) →
      ∀ sheet ∈ normalizeWorkbook wb, ∀ row ∈ sheet, Cell.null ∉ row) := by
  refine ⟨normalizeCell_ne_null, ?_, ?_⟩
  · intro text wb h table htab row hrow hmem
    simp only [textBasedRecovery, textRecoverWithDelim] at h
    split at h
    · cases h
    · cases h
      simp only [List.mem_singleton] at htab
      subst htab
      simp only [List.mem_map] at hrow
      obtain ⟨row0, hrow0, rfl⟩ := hrow
      rcases List.mem_append.mp hmem with h1 | h1
      · exact buildDataAux_nullfree (detectDelimiter text) (recoveryLines text) 0 0
          row0 hrow0 Cell.null h1 rfl
      · have := List.eq_of_mem_replicate h1
        cases this
  · intro wb h sheet hsheet row hrow hmem
    simp only [normalizeWorkbook, List.mem_map] at hsheet
    obtain ⟨sheet0, hs0, rfl⟩ := hsheet
    simp only [List.mem_map] at hrow
    obtain ⟨row0, hr0, rfl⟩ := hrow
    simp only [List.mem_map] at hmem
    obtain ⟨c0, hc0, hc⟩ := hmem
    have hne : c0 ≠ Cell.null := fun hx => h sheet0 hs0 row0 hr0 (hx ▸ hc0)
    cases c0 with
    | str s => exact normalizeCell_ne_null s hc
    | num q => cases hc
    | bool b => cases hc
    | date y m d => cases hc
    | null => exact hne rfl

/-- Witness for `nullFree_spec`: no null cell in the recovery of
`"x,y\nz"`. -/
theorem nullFree_spec_witness :
    Cell.null ∉ [Cell.str "z".data, Cell.str []] := by
  have hd : detectDelimiter "x,y\nz".data = ',' :=
    detectDelimiter_comma_of _ (by decide) (by decide) (by decide)
  have hok : textBasedRecovery "x,y\nz".data =
      .ok [[[Cell.str "x".data, Cell.str "y".data],
            [Cell.str "z".data, Cell.str []]]] := by
    rw [textBasedRecovery, hd]; decide
  exact nullFree_spec.2.1 "x,y\nz".data
    [[[Cell.str "x".data, Cell.str "y".data], [Cell.str "z".data, Cell.str []]]] hok
    [[Cell.str "x".data, Cell.str "y".data], [Cell.str "z".data, Cell.str []]] (by simp)
    [Cell.str "z".data, Cell.str []] (by simp)

/-- C4 counterexample: a null cell handed over by the structured
decoder (as `sheet_to_json(…, { defval: null })` yields for an absent
cell) passes through `normalizeWorkbook` unchanged, so the workbook
produced by the pipeline still carries the null marker instead of an
empty string. -/
theorem nullFree_counterexample :
    convertToXlsx
        ⟨[], .error [], [], [], .error [], [], .ok [[[Cell.null, Cell.str "x".data]]], []⟩
        [] "a.csv".data false = .ok [[[Cell.null, Cell.str "x".data]]] ∧
      Cell.null ∈ [Cell.null, Cell.str "x".data] := by
  constructor <;> decide

/-! ### The orchestrator (claims C1, C2, C3) -/

theorem tryCatch_ok_handler {α : Type} (x : Except Err α) (fb : α) :
    isOkE (tryCatch x (fun _ => .ok fb)) = true := by
  cases x <;> simp [tryCatch, isOkE]

theorem handleBinary_isOk (binReads : List (Except Err Workbook))
    (binJsonMain : Except Err Workbook) (filename : List Char) (n : ℕ)
    (dumpLines : List (List Char)) :
    isOkE (handleBinaryExcelFileM binReads binJsonMain filename n dumpLines) = true := by
  simp only [handleBinaryExcelFileM]
  exact tryCatch_ok_handler _ _

/-- Every branch of the Excel handler produces a workbook: the
fallback ladder is absorbing. -/
theorem handleExcel_isOk (e : ExtCalls) (buffer : List ℕ) (filename : List Char) :
    isOkE (handleExcelFileM e buffer filename) = true := by
  simp only [handleExcelFileM]
  split
  · rfl
  · split
    · rfl
    · split
      · rfl
      · exact handleBinary_isOk _ _ _ _ _

theorem textBasedRecovery_error_iff (text : List Char) :
    isOkE (textBasedRecovery text) = false ↔ recoveryLines text = [] := by
  simp only [textBasedRecovery, textRecoverWithDelim]
  cases hl : recoveryLines text with
  | nil => simp [buildDataAux, isOkE]
  | cons l ls =>
    have : (buildDataAux (detectDelimiter text) 0 0 (l :: ls)).1 =
        processLine true (detectDelimiter text) l ::
          (buildDataAux (detectDelimiter text) 1
            (max 0 (processLine true (detectDelimiter text) l).length) ls).1 := by
      simp [buildDataAux]
    rw [this]
    simp [isOkE]

/-- Error characterization of the whole conversion: an error escapes
iff the input is not Excel-routed, the path reaches text recovery
(forced, or the standard parse stage failed), and the decoded text has
no non-blank line. -/
theorem convertToXlsx_error_iff (e : ExtCalls) (buffer : List ℕ) (filename : List Char)
    (force : Bool) :
    isOkE (convertToXlsx e buffer filename force) = false ↔
      excelRouted buffer filename = false ∧
      (force = true ∨ isOkE (stdParseChecked e.stdParse) = false) ∧
      recoveryLines e.decodedText = [] := by
  simp only [convertToXlsx]
  by_cases hr : excelRouted buffer filename = true
  · simp only [hr, if_true]
    have h := handleExcel_isOk e buffer filename
    simp [h, hr]
  · have hr' : excelRouted buffer filename = false := by
      cases h : excelRouted buffer filename
      · rfl
      · exact absurd h hr
    simp only [hr', Bool.false_eq_true, if_false]
    cases force with
    | true =>
      cases ht : textBasedRecovery e.decodedText with
      | ok wb =>
        have : isOkE (textBasedRecovery e.decodedText) = true := by rw [ht]; rfl
        have hlines : ¬ recoveryLines e.decodedText = [] := by
          intro hc
          rw [(textBasedRecovery_error_iff e.decodedText).mpr hc] at this
          cases this
        simp [ht, isOkE, hlines]
      | error m =>
        have : isOkE (textBasedRecovery e.decodedText) = false := by rw [ht]; rfl
        have hlines : recoveryLines e.decodedText = [] :=
          (textBasedRecovery_error_iff e.decodedText).mp this
        simp [ht, isOkE, hlines]
    | false =>
      cases hs : stdParseChecked e.stdParse with
      | ok wb => simp [hs, isOkE]
      | error m =>
        have hstd : isOkE (stdParseChecked e.stdParse) = false := by rw [hs]; rfl
        cases ht : textBasedRecovery e.decodedText with
        | ok wb =>
          have : isOkE (textBasedRecovery e.decodedText) = true := by rw [ht]; rfl
          have hlines : ¬ recoveryLines e.decodedText = [] := by
            intro hc
            rw [(textBasedRecovery_error_iff e.decodedText).mpr hc] at this
            cases this
          simp [hs, ht, isOkE, hlines]
        | error m2 =>
          have : isOkE (textBasedRecovery e.decodedText) = false := by rw [ht]; rfl
          have hlines : recoveryLines e.decodedText = [] :=
            (textBasedRecovery_error_iff e.decodedText).mp this
          simp [hs, ht, isOkE, hlines, hstd]

/-- C1 (amended): Excel-routed inputs always produce a workbook (the
fallback ladder absorbs every stage failure), and on the text route
`convertToXlsx` raises exactly when the path reaches delimited-text
recovery and the decoded text has zero non-blank lines; no other
input raises. -/
theorem convertToXlsx_totality :
    (∀ (e : ExtCalls) (buffer : List ℕ) (filename : List Char) (force : Bool),
      excelRouted buffer filename = true →
      isOkE (convertToXlsx e buffer filename force) = true) ∧
    (∀ (e : ExtCalls) (buffer : List ℕ) (filename : List Char) (force : Bool),
      isOkE (convertToXlsx e buffer filename force) = false ↔
        excelRouted buffer filename = false ∧
        (force = true ∨ isOkE (stdParseChecked e.stdParse) = false) ∧
        recoveryLines e.decodedText = []) := by
  constructor
  · intro e buffer filename force h
    simp only [convertToXlsx, h, if_true]
    exact handleExcel_isOk e buffer filename
  · intro e buffer filename force
    exact convertToXlsx_error_iff e buffer filename force

/-- Witness for `convertToXlsx_totality`: an Excel-routed input on
which every collaborator call fails still converts. -/
theorem convertToXlsx_totality_witness :
    isOkE (convertToXlsx
      ⟨List.replicate 11 (.error []), .error [], List.replicate 6 (.error []),
       List.replicate 4 (.error []), .error [], [], .error [], []⟩
      [] "recovered.xls".data false) = true :=
  convertToXlsx_totality.1 _ [] "recovered.xls".data false (by decide)

/-- C1 counterexample: on an empty `.csv` buffer (decoded text empty,
standard decode yielding a sheetless workbook — the repo's own
`빈 워크북` check fires) the conversion raises: `convertToXlsx` is not
total. -/
theorem convertToXlsx_raises_counterexample :
    isOkE (convertToXlsx ⟨[], .error [], [], [], .error [], [], .ok [], []⟩
      [] "a.csv".data false) = false := by decide

/-- C2 (amended): on the text route, forced mode raises exactly when
the decoded text has zero non-blank lines, and unforced mode raises
exactly when additionally the standard parse stage failed; on the
Excel route (entered before the force flag is consulted) no error ever
escapes, even with zero decodable lines. -/
theorem convertToXlsx_failure_modes :
    (∀ (e : ExtCalls) (buffer : List ℕ) (filename : List Char),
      excelRouted buffer filename = false →
      (isOkE (convertToXlsx e buffer filename true) = false ↔
        recoveryLines e.decodedText = [])) ∧
    (∀ (e : ExtCalls) (buffer : List ℕ) (filename : List Char),
      excelRouted buffer filename = false →
      (isOkE (convertToXlsx e buffer filename false) = false ↔
        isOkE (stdParseChecked e.stdParse) = false ∧
        recoveryLines e.decodedText = [])) ∧
    (∀ (e : ExtCalls) (buffer : List ℕ) (filename : List Char) (force : Bool),
      excelRouted buffer filename = true →
      isOkE (convertToXlsx e buffer filename force) = false → False) := by
  refine ⟨?_, ?_, ?_⟩
  · intro e buffer filename h
    rw [convertToXlsx_error_iff]
    simp [h]
  · intro e buffer filename h
    rw [convertToXlsx_error_iff]
    simp [h]
  · intro e buffer filename force h hc
    rw [convertToXlsx_error_iff] at hc
    rw [h] at hc
    simp at hc

/-- Witness for `convertToXlsx_failure_modes`: the forced text route
on a concrete non-Excel input with blank decoded text raises. -/
theorem convertToXlsx_failure_modes_witness :
    isOkE (convertToXlsx ⟨[], .error [], [], [], .error [], [], .error [], []⟩
      [] "notes.txt".data true) = false :=
  (convertToXlsx_failure_modes.1 _ [] "notes.txt".data (by decide)).mpr (by decide)

/-- C2 counterexample: with the force flag set, a `.xls` filename
routes to the Excel handler before the flag is consulted, so an input
whose decoded text has zero non-blank lines does NOT raise — the
claimed « raises exactly in that case » equivalence fails. -/
theorem forced_raise_counterexample :
    isOkE (convertToXlsx
      ⟨List.replicate 11 (.error []), .error [], List.replicate 6 (.error []),
       List.replicate 4 (.error []), .error [], [], .error [], []⟩
      [] "b.xls".data true) = true ∧
    recoveryLines ([] : List Char) = [] := by
  constructor <;> decide

/-- C3 (amended): when the input is NOT routed to the Excel handler,
the force flag sends the pipeline directly into delimited-text
recovery — the result is a function of the decoded text alone, and no
structured-decode outcome is consulted. -/
theorem forced_entry_spec (e : ExtCalls) (buffer : List ℕ) (filename : List Char)
    (h : excelRouted buffer filename = false) :
    convertToXlsx e buffer filename true = finishTextRecovery e.decodedText := by
  simp only [convertToXlsx, h, Bool.false_eq_true, if_false, if_true,
    finishTextRecovery]

/-- Witness for `forced_entry_spec` at a concrete non-Excel input. -/
theorem forced_entry_spec_witness :
    convertToXlsx ⟨[], .error [], [], [], .error [], [], .error [], "p,q".data⟩
      [] "a.csv".data true = finishTextRecovery "p,q".data :=
  forced_entry_spec _ [] "a.csv".data (by decide)

/-- C3 counterexample: with the force flag set but a `.xls` filename,
the structured-decode attempt is still consulted — two runs differing
only in the first read outcome convert differently, and the successful
one returns the structured result, not a text recovery. -/
theorem forced_entry_counterexample :
    convertToXlsx
        ⟨[Except.ok [[[Cell.str "h".data]]]], .error [], [], [], .error [], [],
          .error [], []⟩ [] "a.xls".data true = .ok [[[Cell.str "h".data]]] ∧
      convertToXlsx
        ⟨[Except.error []], .error [], [], [], .error [], [], .error [], []⟩
        [] "a.xls".data true ≠ .ok [[[Cell.str "h".data]]] := by
  constructor <;> decide

/-! ### The zero-token diagnostic (claim C9) -/

/-- C9 (amended): with zero mined tokens the byte-scan miner emits the
two-column key/value diagnostic of four data rows under its header,
stating that no meaningful text was found and carrying the input
filename and its byte length. -/
theorem diagnostic_table_spec (filename : List Char) (n : ℕ) :
    findMeaningfulTextTable [] filename n = meaningfulFallbackTable filename n ∧
    [Cell.str "파일명".data, Cell.str filename] ∈ findMeaningfulTextTable [] filename n ∧
    [Cell.str "파일 크기".data, Cell.str (natRepr n ++ " bytes".data)] ∈
      findMeaningfulTextTable [] filename n ∧
    [Cell.str "파일 손상".data, Cell.str "의미있는 텍스트를 찾을 수 없습니다".data] ∈
      findMeaningfulTextTable [] filename n ∧
    (findMeaningfulTextTable [] filename n).length = 5 := by
  refine ⟨rfl, ?_, ?_, ?_, rfl⟩ <;>
    simp [findMeaningfulTextTable, meaningfulFallbackTable]

/-- C9 counterexample: the zero-token diagnostic is not a one-row
table — it has four data rows under its header (length 5, not 2). -/
theorem diagnostic_rows_counterexample :
    (findMeaningfulTextTable [] "data.xls".data 7).length = 5 ∧
      ¬ (findMeaningfulTextTable [] "data.xls".data 7).length ≤ 2 := by
  constructor <;> decide

/-! ### `processFile` (claim C10) -/

/-- C10: `processFile` is total and error-atomic at the result level —
it returns a `ConversionResult` for every buffer, filename and
conversion outcome; the result is a failure exactly on an unsupported
extension, an oversize buffer, or a conversion error; every failure
result drops the converted buffer, keeps the original filename and
`originalSize = buffer.length`, and carries a message. -/
theorem processFile_spec (buffer : List ℕ) (filename : List Char)
    (conv : Except Err (Workbook × ℕ)) :
    ((processFile buffer filename conv).success = false ↔
      validateFileExtension filename = false ∨
      validateFileSize buffer.length = false ∨ isOkE conv = false) ∧
    ((processFile buffer filename conv).success = false →
      (processFile buffer filename conv).buffer? = none ∧
      (processFile buffer filename conv).filename = filename ∧
      (processFile buffer filename conv).message?.isSome = true) ∧
    (processFile buffer filename conv).originalSize = buffer.length := by
  simp only [processFile]
  by_cases h1 : validateFileExtension filename
  · by_cases h2 : validateFileSize buffer.length
    · cases conv with
      | ok p =>
        cases p
        simp [h1, h2, failureResult, isOkE]
      | error m => simp [h1, h2, failureResult, isOkE]
    · have h2' : validateFileSize buffer.length = false := by
        cases h : validateFileSize buffer.length
        · rfl
        · exact absurd h h2
      simp [h1, h2, h2', failureResult]
  · have h1' : validateFileExtension filename = false := by
      cases h : validateFileExtension filename
      · rfl
      · exact absurd h h1
    simp [h1, h1', failureResult]

/-- Witness for `processFile_spec`: an unsupported extension yields a
failure result with no converted buffer. -/
theorem processFile_spec_witness :
    (processFile [] "a.bin".data (.error "x".data)).buffer? = none :=
  ((processFile_spec [] "a.bin".data (.error "x".data)).2.1 (by decide)).1

end ExcelConvert
